import Mathlib

/-!
Verification of the design-graph traversal and caching core of the
mcp-genui-figma server (src/index.ts), as a shallow embedding in Lean 4.

The embedding follows the TypeScript source. Remote HTTP calls are modelled
as oracle arguments of type `Except String α`: `Except.ok v` is a successful
response with payload `v`, `Except.error e` a transport-level failure whose
message is `e`. The process-wide mutable cache and active-file pointer are
threaded through as an explicit `ServerState`. JavaScript truthiness on
optional string fields (where `undefined` and `""` are both falsy) is
modelled by `jsOr` and explicit empty-string tests.
-/

/-- Summary form of a design node, mirroring the `FigmaNode` type of the
source. In the source `name` is populated from the raw `node.name`, which
may be absent, hence `Option String`. -/
structure FigmaNode where
  id : String
  name : Option String
  type : String
  description : String
deriving DecidableEq, Repr

/-- A file record, mirroring the `FigmaFile` type of the source. -/
structure FigmaFile where
  key : String
  name : String
  lastModified : String
  thumbnailUrl : Option String
deriving DecidableEq, Repr

/-- Component record produced by the shallow top-level scan, mirroring the
`Component` type of the source (its fields are copied from raw nodes whose
`name` may be absent). -/
structure Component where
  id : String
  name : Option String
  type : Option String
  description : String
deriving DecidableEq, Repr

/-- Raw document tree returned by the remote API: an arbitrarily deep tree
of nodes. A node with no `children` field is modelled as having `[]`.
Fields `name`, `type` and `description` may be absent in the raw JSON. -/
inductive FigNode where
  | mk (id : String) (name : Option String) (type : Option String)
       (description : Option String) (children : List FigNode)

@[simp] def FigNode.id : FigNode → String
  | .mk i _ _ _ _ => i

@[simp] def FigNode.name : FigNode → Option String
  | .mk _ n _ _ _ => n

@[simp] def FigNode.type : FigNode → Option String
  | .mk _ _ t _ _ => t

@[simp] def FigNode.description : FigNode → Option String
  | .mk _ _ _ d _ => d

@[simp] def FigNode.children : FigNode → List FigNode
  | .mk _ _ _ _ c => c

/-- Node-detail blob: the source treats it as an opaque API-shaped value
(`any`); we model it as an opaque string payload. -/
abbrev NodeDetail := String

/-- The process-wide cache of the source (`const cache = ...`): the shared
file list, the per-file node-summary lists, and the per-`fileKey:nodeId`
detail blobs. Record-valued JS objects are assoc lists keyed by strings. -/
structure Cache where
  files : List FigmaFile
  fileNodes : List (String × List FigmaNode)
  nodeDetails : List (String × NodeDetail)
deriving DecidableEq, Repr

/-- The process-wide server state: the active-file pointer plus the cache. -/
structure ServerState where
  activeFileKey : String
  cache : Cache
deriving DecidableEq, Repr

/-- JavaScript `x || d` on a possibly-absent string `x`: both `undefined`
and the empty string are falsy and select the default. -/
def jsOr (x : Option String) (d : String) : String :=
  match x with
  | some s => if s = "" then d else s
  | none => d

/-- ASCII lowercasing of a string, modelling JS `toLowerCase` on the ASCII
type names that occur in the source. -/
def lowerString (s : String) : String :=
  String.mk (s.data.map Char.toLower)

/-- The "important" node-type vocabulary of the bounded full traversal:
`["FRAME", "COMPONENT", "COMPONENT_SET"].includes(node.type)` (JS strings shown double-quoted), where an
absent `type` never matches. -/
def isImportantType (t : Option String) : Bool :=
  match t with
  | some s => s == "FRAME" || s == "COMPONENT" || s == "COMPONENT_SET"
  | none => false

/-- Node summary pushed by `traverseNodes` for a node of important type
`t`: id and name copied, description defaulted through JS `||`. -/
def traverseSummary (n : FigNode) (t : String) : FigmaNode :=
  { id := n.id
    name := n.name
    type := t
    description := jsOr n.description ("A " ++ lowerString t ++ " from Figma") }

/-- Stable reordering of a child list so that important-typed children come
first, preserving relative order within each part. This is the effect of
the source `sort` with comparator `bIsImportant - aIsImportant` (JS array
sort is stable, and the comparator only distinguishes the two classes). -/
def sortChildren (l : List FigNode) : List FigNode :=
  l.filter (fun c => isImportantType c.type)
    ++ l.filter (fun c => !(isImportantType c.type))

/-- The recursive `traverseNodes` helper of `fetchFileNodes`. The source
recursion is bounded by the depth guard `depth >= maxDepth → return`; we
recurse on the remaining depth budget `fuel = maxDepth - depth` (the guard
fires exactly when `fuel = 0`). The source pushes a summary when the type
is important, re-checks the count bound after the push and before each
child (the `break` in the child loop), and visits children in
important-first stable order. -/
def traverseNodes (maxNodes : Nat) (fuel : Nat) (n : FigNode)
    (nodes : List FigmaNode) : List FigmaNode :=
  match fuel with
  | 0 => nodes
  | Nat.succ fuel =>
    if nodes.length ≥ maxNodes then nodes
    else
      let nodes1 :=
        match n.type with
        | some t =>
          if isImportantType (some t) then nodes ++ [traverseSummary n t]
          else nodes
        | none => nodes
      (sortChildren n.children).foldl
        (fun acc c =>
          if acc.length ≥ maxNodes then acc else traverseNodes maxNodes fuel c acc)
        nodes1

/-- `fetchFileNodes(fileKey, maxNodes = 50, maxDepth = 3)`: returns the
cached summary list verbatim on a cache hit (ignoring the bounds of the
current call); on a miss it fetches the document, runs `traverseNodes`
from the root at depth 0 (depth budget `maxDepth`), stores the result in
the cache, and returns it. Its `catch` branch swallows the remote error
and returns the empty list, so the result is always `Except.ok`. -/
def fetchFileNodes (st : ServerState) (fileKey : String)
    (remote : Except String FigNode) (maxNodes maxDepth : Nat) :
    Except String (List FigmaNode) × ServerState :=
  match (st.cache.fileNodes).lookup fileKey with
  | some ns => (Except.ok ns, st)
  | none =>
    match remote with
    | Except.error _ => (Except.ok [], st)
    | Except.ok document =>
      let nodes := traverseNodes maxNodes maxDepth document []
      (Except.ok nodes,
        { st with cache :=
          { st.cache with fileNodes := st.cache.fileNodes ++ [(fileKey, nodes)] } })

example :
    traverseNodes 50 3
      (FigNode.mk "0:0" (some "Doc") (some "DOCUMENT") none
        [FigNode.mk "1:1" (some "A") (some "FRAME") none []]) []
      = [{ id := "1:1", name := some "A", type := "FRAME",
           description := "A frame from Figma" }] := by decide

/-- `isComponentLike` of the source: the broader vocabulary used by the
shallow top-level scan (note it includes `INSTANCE`, unlike the full
traversal). -/
def isComponentLike (n : FigNode) : Bool :=
  n.type == some "COMPONENT" || n.type == some "COMPONENT_SET" ||
  n.type == some "FRAME" || n.type == some "INSTANCE"

/-- Component record pushed by the shallow scan for a raw node:
`{ id, name, type, description: node.description || "" }`. -/
def toComponent (n : FigNode) : Component :=
  { id := n.id, name := n.name, type := n.type, description := jsOr n.description "" }

/-- The variants surfaced for a `COMPONENT_SET` page child: all of its
component-like children, pushed with no count check (the inner loop of
the source has no limit test). -/
def componentSetChildren (n : FigNode) : List Component :=
  if n.type == some "COMPONENT_SET" then
    (n.children.filter isComponentLike).map toComponent
  else []

/-- The per-page child loop of `fetchTopLevelComponents`: each
component-like child is pushed together with its `COMPONENT_SET` variants,
and only then is the count bound checked (`break`); children that are not
component-like are skipped without any bound check. -/
def pageChildrenLoop (limit : Nat) : List FigNode → List Component → List Component
  | [], acc => acc
  | n :: ns, acc =>
    if isComponentLike n then
      let acc2 := (acc ++ [toComponent n]) ++ componentSetChildren n
      if acc2.length ≥ limit then acc2 else pageChildrenLoop limit ns acc2
    else pageChildrenLoop limit ns acc

/-- The page loop of `fetchTopLevelComponents`: a page that is itself
component-like is pushed with no bound check, then its children are
scanned, then the count bound is checked before moving to the next page. -/
def pagesLoop (limit : Nat) : List FigNode → List Component → List Component
  | [], acc => acc
  | p :: ps, acc =>
    let acc1 := if isComponentLike p then acc ++ [toComponent p] else acc
    let acc2 := pageChildrenLoop limit p.children acc1
    if acc2.length ≥ limit then acc2 else pagesLoop limit ps acc2

/-- `fetchTopLevelComponents(fileKey, limit = 10)`: fetches the document
and scans only the document children (pages) and their direct children,
plus one level into `COMPONENT_SET` children. A remote failure is rethrown
as a descriptive error. It does not touch the cache. -/
def fetchTopLevelComponents (fileKey : String) (remote : Except String FigNode)
    (limit : Nat) : Except String (List Component) :=
  match remote with
  | Except.error e =>
    Except.error ("Failed to fetch components from file " ++ fileKey ++ ": " ++ e)
  | Except.ok document => Except.ok (pagesLoop limit document.children [])

/-- `fetchNodeDetails(fileKey, nodeId)`: cache hit on the composite key
`fileKey:nodeId` returns the cached blob; on a miss the remote response
payload `response.data.nodes[nodeId]` (absent when the node id is unknown)
is stored and returned. Storing an absent payload is indistinguishable
from not storing (the hit test is JS truthiness), so only present payloads
are recorded. The `catch` branch swallows the remote error and returns
`null`, modelled as `Except.ok none`. -/
def fetchNodeDetails (st : ServerState) (fileKey nodeId : String)
    (remote : Except String (Option NodeDetail)) :
    Except String (Option NodeDetail) × ServerState :=
  let cacheKey := fileKey ++ ":" ++ nodeId
  match (st.cache.nodeDetails).lookup cacheKey with
  | some d => (Except.ok (some d), st)
  | none =>
    match remote with
    | Except.error _ => (Except.ok none, st)
    | Except.ok nodeData =>
      match nodeData with
      | some d =>
        (Except.ok (some d),
          { st with cache :=
            { st.cache with nodeDetails := st.cache.nodeDetails ++ [(cacheKey, d)] } })
      | none => (Except.ok none, st)

/-- `fetchFigmaFiles()`: returns the cached list when non-empty. Otherwise
it calls the primary listing endpoint (`primary`); on success the result
is cached and returned. On failure, if the active-file pointer or the
configured default key (`df`) is non-empty, it attempts a direct fetch of
that single file (`direct`, yielding the file name) and on success caches
and returns a singleton list; any remaining failure yields the empty list
with no state change. `now` models `new Date().toISOString()`. -/
def fetchFigmaFiles (df : String) (st : ServerState)
    (primary : Except String (List FigmaFile)) (direct : Except String String)
    (now : String) : List FigmaFile × ServerState :=
  if 0 < st.cache.files.length then (st.cache.files, st)
  else
    match primary with
    | Except.ok fs => (fs, { st with cache := { st.cache with files := fs } })
    | Except.error _ =>
      if df ≠ "" ∨ st.activeFileKey ≠ "" then
        let fileKey := if st.activeFileKey ≠ "" then st.activeFileKey else df
        match direct with
        | Except.ok nm =>
          let file : FigmaFile :=
            { key := fileKey, name := nm, lastModified := now, thumbnailUrl := none }
          ([file], { st with cache := { st.cache with files := [file] } })
        | Except.error _ => ([], st)
      else ([], st)

/-- `getActiveFile()`: resolves through `fetchFigmaFiles`; `none` on an
empty list; the first `find` hit on the pointer key when the pointer is
truthy (non-empty); otherwise the first file. -/
def getActiveFile (df : String) (st : ServerState)
    (primary : Except String (List FigmaFile)) (direct : Except String String)
    (now : String) : Option FigmaFile × ServerState :=
  let r := fetchFigmaFiles df st primary direct now
  let files := r.1
  let st1 := r.2
  if files.length = 0 then (none, st1)
  else if st1.activeFileKey ≠ "" then
    match files.find? (fun f => f.key == st1.activeFileKey) with
    | some f => (some f, st1)
    | none => (files.head?, st1)
  else (files.head?, st1)

/-- The `set_active_figma_file` tool handler: verifies the file by a
direct fetch (`remote`, yielding the file name); only after the fetch
succeeds does it commit the pointer and append a synthesized record to the
cached file list when the key is not already present; on failure it
rethrows a descriptive error having mutated nothing. -/
def setActiveFigmaFile (st : ServerState) (fileKey now : String)
    (remote : Except String String) : Except String String × ServerState :=
  match remote with
  | Except.error _ =>
    (Except.error ("File with key " ++ fileKey ++ " not found or not accessible"), st)
  | Except.ok fileName =>
    let st1 := { st with activeFileKey := fileKey }
    let st2 :=
      if (st1.cache.files.find? (fun f => f.key == fileKey)).isSome then st1
      else
        { st1 with cache :=
          { st1.cache with files := st1.cache.files ++
            [{ key := fileKey, name := fileName, lastModified := now,
               thumbnailUrl := none }] } }
    (Except.ok ("Active Figma file set to: " ++ fileName ++ " (" ++ fileKey ++ ")"), st2)

/-- Atom of the fragment of JavaScript regular-expression syntax exercised
by the name search: a literal character or the any-character metacharacter
dot. Queries containing other metacharacters are outside the modelled
fragment, and the theorems below only quantify over queries inside it. -/
inductive Atom where
  | lit (c : Char)
  | dot
deriving DecidableEq, Repr

/-- Case-insensitive single-character match of an atom (the search compiles
its pattern with the `i` flag). -/
def atomMatchesI : Atom → Char → Bool
  | Atom.lit c, d => c.toLower == d.toLower
  | Atom.dot, _ => true

/-- Whether the pattern matches some prefix of the character list. -/
def matchPrefixI : List Atom → List Char → Bool
  | [], _ => true
  | _ :: _, [] => false
  | a :: p, c :: s => atomMatchesI a c && matchPrefixI p s

/-- Unanchored search: whether the pattern matches starting at some
position of the character list. This is JS `RegExp.test` for the modelled
fragment. -/
def regexSearchI (p : List Atom) : List Char → Bool
  | [] => matchPrefixI p []
  | c :: s => matchPrefixI p (c :: s) || regexSearchI p s

/-- JS `RegExp(query).test(s)` with the i flag, for queries inside the
modelled fragment. -/
def regexTestI (p : List Atom) (s : String) : Bool :=
  regexSearchI p s.data

/-- Compilation of a query string into the modelled pattern: a dot becomes
the any-character atom, every other character a literal. Faithful to
`RegExp(query)` with the i flag for queries whose characters are dots or
characters without regex meaning. -/
def stringToPattern (s : String) : List Atom :=
  s.data.map (fun c => if c == '.' then Atom.dot else Atom.lit c)

/-- Characters that JS regex syntax treats as themselves; the refinement
theorem for the name search quantifies only over queries made of these. -/
def isRegexLiteralChar (c : Char) : Bool :=
  c.isAlphanum || c == '-' || c == '_' || c == ':' || c == ' '

/-- The per-node match test of `findNodesByName`:
`node.name && namePattern.test(node.name)` — an absent or empty name is
falsy and never matches. -/
def figmaSearchPred (pat : List Atom) (n : FigNode) : Bool :=
  match n.name with
  | some s => if s = "" then false else regexTestI pat s
  | none => false

/-- Summary pushed by the search for a matching node: raw type defaulted
to `"Unknown"` through JS `||`, description defaulted with the raw
(truthy) type lowercased, else the word `node`. -/
def searchSummary (n : FigNode) : FigmaNode :=
  { id := n.id
    name := n.name
    type := jsOr n.type "Unknown"
    description :=
      jsOr n.description
        ("A " ++ (match n.type with
                  | some t => if t = "" then "node" else lowerString t
                  | none => "node") ++ " from Figma") }

/-- The recursive `searchNodes` helper of `findNodesByName`, generic in
the per-node match predicate. The source guard is
`depth > maxDepth → return`, so a call at depth `d` has remaining budget
`fuel = maxDepth + 1 - d` and the guard fires exactly at `fuel = 0`.
Children are visited in document order with the count bound re-checked
before each child. -/
def searchNodes (pred : FigNode → Bool) (maxResults : Nat) (fuel : Nat)
    (n : FigNode) (acc : List FigmaNode) : List FigmaNode :=
  match fuel with
  | 0 => acc
  | Nat.succ fuel =>
    if acc.length ≥ maxResults then acc
    else
      let acc1 := if pred n then acc ++ [searchSummary n] else acc
      n.children.foldl
        (fun a c =>
          if a.length ≥ maxResults then a else searchNodes pred maxResults fuel c a)
        acc1

/-- `findNodesByName(fileKey, name, maxResults = 10)`: fetches the
document and searches it depth-first pre-order from the root at depth 0
with depth bound 10 (hence budget 11), matching with the case-insensitive
regex compiled from the query. A remote failure is rethrown as a
descriptive error. The cache is not consulted. -/
def findNodesByName (fileKey : String) (pat : List Atom)
    (remote : Except String FigNode) (maxResults : Nat) :
    Except String (List FigmaNode) :=
  match remote with
  | Except.error e =>
    Except.error ("Failed to search for nodes by name: " ++ e)
  | Except.ok document =>
    Except.ok (searchNodes (figmaSearchPred pat) maxResults 11 document [])

/-- Case-insensitive prefix relation on character lists, the building
block of the specification-side substring test. -/
def ciPrefixMatch : List Char → List Char → Bool
  | [], _ => true
  | _ :: _, [] => false
  | c :: p, d :: s => (c.toLower == d.toLower) && ciPrefixMatch p s

/-- Case-insensitive substring occurrence of `p` inside `s`. -/
def ciSubstrMatch (p : List Char) : List Char → Bool
  | [] => ciPrefixMatch p []
  | d :: s => ciPrefixMatch p (d :: s) || ciSubstrMatch p s

/-- Case-insensitive substring test on strings, written from the
specification wording (case-insensitive substring match of the query
against the name). -/
def ciSubstring (q name : String) : Bool :=
  ciSubstrMatch q.data name.data

/-- Specification-side match test, written from the spec wording: the node
has a (non-empty) name and the query is a case-insensitive substring of
it. -/
def specSearchPred (q : String) (n : FigNode) : Bool :=
  match n.name with
  | some s => if s = "" then false else ciSubstring q s
  | none => false

/-- Specification-side name search, for the refinement comparison with
`findNodesByName`: the same bounded traversal with the substring match
test in place of the regex test. -/
def findNodesByNameSpec (fileKey : String) (q : String)
    (remote : Except String FigNode) (maxResults : Nat) :
    Except String (List FigmaNode) :=
  match remote with
  | Except.error e =>
    Except.error ("Failed to search for nodes by name: " ++ e)
  | Except.ok document =>
    Except.ok (searchNodes (specSearchPred q) maxResults 11 document [])

/-- JS `String.split(sep)` restricted to the single-character separator
`/` used by the address parser, on the character-list representation. -/
def splitOnSlash (s : List Char) : List (List Char) :=
  match s with
  | [] => [[]]
  | c :: cs =>
    let r := splitOnSlash cs
    if c = '/' then [] :: r
    else
      match r with
      | [] => [[c]]
      | p :: ps => (c :: p) :: ps

/-- Break a character list at its first slash: `some (before, after)` when
a slash occurs, `none` otherwise. This is the shape of the anchored regex
`figma:\/\/node\/([^\/]+)\/(.+)` after the fixed prefix: a maximal
slash-free group, a slash, then the (non-empty) remainder. -/
def breakAtSlash : List Char → Option (List Char × List Char)
  | [] => none
  | c :: cs =>
    if c = '/' then some ([], cs)
    else
      match breakAtSlash cs with
      | some (a, b) => some (c :: a, b)
      | none => none

/-- The node-address parser shared verbatim by the `generate_component`
and `export_component_image` handlers. Three shapes: the scheme form
`figma://node/fileKey/nodeId` (parsed by an anchored regex whose node-id
group may contain slashes), the slash-joined short form (parsed by
`nodeUri.split(slash, 2)` — note JS `split` with a limit truncates the
result array and discards the remainder), and a bare node id resolved
against the active file. A final check rejects an empty file key or node
id. Error message texts are abbreviated to their identifying first line. -/
def parseNodeUri (activeFile : Option FigmaFile) (uri : String) :
    Except String (String × String) :=
  let result : Except String (String × String) :=
    if ("figma://".data).isPrefixOf uri.data then
      if ("figma://node/".data).isPrefixOf uri.data then
        match breakAtSlash (uri.data.drop 13) with
        | some (fk, nid) =>
          if fk.isEmpty || nid.isEmpty then
            Except.error ("Invalid node URI format: " ++ uri)
          else Except.ok (String.mk fk, String.mk nid)
        | none => Except.error ("Invalid node URI format: " ++ uri)
      else Except.error ("Invalid node URI format: " ++ uri)
    else if uri.data.contains '/' then
      match (splitOnSlash uri.data).take 2 with
      | [fk, nid] => Except.ok (String.mk fk, String.mk nid)
      | _ => Except.error ("Invalid node URI format: " ++ uri)
    else
      match activeFile with
      | none =>
        Except.error "No active Figma file. Please set an active file first using set_active_figma_file."
      | some f => Except.ok (f.key, uri)
  match result with
  | Except.ok (fk, nid) =>
    if fk = "" ∨ nid = "" then
      Except.error ("Could not extract fileKey and nodeId from URI: " ++ uri)
    else Except.ok (fk, nid)
  | Except.error e => Except.error e

deriving instance DecidableEq for Except

def exampleActiveFile : FigmaFile :=
  { key := "XYZ", name := "f", lastModified := "", thumbnailUrl := none }

example : parseNodeUri none "ABC123/4:5" = Except.ok ("ABC123", "4:5") := by decide

example : parseNodeUri none "figma://node/ABC123/4:5" = Except.ok ("ABC123", "4:5") := by
  decide

example : parseNodeUri (some exampleActiveFile) "4:5" = Except.ok ("XYZ", "4:5") := by
  decide

/-- A predicate preserved by every step of a left fold is preserved by the
whole fold. -/
lemma foldlPreserve {α β : Type} (P : β → Prop) (f : β → α → β)
    (h : ∀ (b : β) (a : α), P b → P (f b a)) :
    ∀ (l : List α) (b : β), P b → P (List.foldl f b l)
  | [], _, hb => hb
  | a :: l, b, hb => foldlPreserve P f h l (f b a) (h b a hb)

/-- The accumulator of `traverseNodes` never grows beyond `maxNodes`: a
summary is only pushed after the strict count check. -/
lemma traverseNodes_len (maxN : Nat) :
    ∀ (fuel : Nat) (n : FigNode) (acc : List FigmaNode),
      acc.length ≤ maxN → (traverseNodes maxN fuel n acc).length ≤ maxN := by
  intro fuel
  induction fuel with
  | zero =>
    intro n acc h
    simpa [traverseNodes] using h
  | succ f ih =>
    intro n acc h
    rw [traverseNodes]
    by_cases hge : acc.length ≥ maxN
    · simp only [if_pos hge]
      exact h
    · simp only [if_neg hge]
      have hlt : acc.length < maxN := Nat.lt_of_not_le hge
      apply foldlPreserve (fun l : List FigmaNode => l.length ≤ maxN)
      · intro a c ha
        by_cases hc : a.length ≥ maxN
        · simpa [if_pos hc] using ha
        · simpa [if_neg hc] using ih c a ha
      · cases ht : n.type with
        | none => exact h
        | some t =>
          by_cases himp : isImportantType (some t) = true
          · simp only [himp, if_pos]
            simpa using hlt
          · simp only [himp]
            simpa using h

/-- C1 (amended): a cache-miss call of `fetchFileNodes` with node bound
`N` returns a list of length at most `N` (a cache-hit call instead
returns the originally cached list unchanged, which may exceed the bound
of the current call — see the counterexample). -/
theorem fetchFileNodes_fresh_call_respects_maxNodes (st : ServerState)
    (k : String) (r : Except String FigNode) (N D : Nat) (ns : List FigmaNode)
    (hmiss : (st.cache.fileNodes).lookup k = none)
    (hres : (fetchFileNodes st k r N D).1 = Except.ok ns) :
    ns.length ≤ N := by
  unfold fetchFileNodes at hres
  rw [hmiss] at hres
  cases r with
  | error e =>
    simp only [Except.ok.injEq] at hres
    subst hres
    simp
  | ok doc =>
    simp only [Except.ok.injEq] at hres
    subst hres
    exact traverseNodes_len N D doc [] (by simp)

def frameA : FigNode := FigNode.mk "1:1" (some "A") (some "FRAME") none []

def frameB : FigNode := FigNode.mk "1:2" (some "B") (some "FRAME") none []

def docTwoFrames : FigNode :=
  FigNode.mk "0:0" (some "Document") (some "DOCUMENT") none [frameA, frameB]

def frameASummary : FigmaNode :=
  { id := "1:1", name := some "A", type := "FRAME",
    description := "A frame from Figma" }

def frameBSummary : FigmaNode :=
  { id := "1:2", name := some "B", type := "FRAME",
    description := "A frame from Figma" }

def emptyState : ServerState :=
  { activeFileKey := "",
    cache := { files := [], fileNodes := [], nodeDetails := [] } }

/-- State after a first `fetchFileNodes` call for file `K` with
`maxNodes = 2`, which caches both frame summaries. -/
def stateAfterFirstFetch : ServerState :=
  (fetchFileNodes emptyState "K" (Except.ok docTwoFrames) 2 3).2

/-- C1 (counterexample): after a first call with `maxNodes = 2` populated
the cache for file `K` with two summaries, a second call with
`maxNodes = 1` returns both cached summaries — a list longer than the
bound of that call. -/
theorem fetchFileNodes_cached_call_exceeds_maxNodes :
    (fetchFileNodes stateAfterFirstFetch "K" (Except.ok docTwoFrames) 1 3).1
      = Except.ok [frameASummary, frameBSummary]
    ∧ ¬ ([frameASummary, frameBSummary].length ≤ 1) := by
  exact ⟨by decide, by decide⟩

/-- C1 (witness): the amended bound at a concrete cache-miss call. -/
theorem fetchFileNodes_fresh_call_respects_maxNodes_witness :
    ((emptyState.cache.fileNodes).lookup "K" = none)
    ∧ [frameASummary, frameBSummary].length ≤ 2 :=
  ⟨by decide,
   fetchFileNodes_fresh_call_respects_maxNodes emptyState "K"
     (Except.ok docTwoFrames) 2 3 [frameASummary, frameBSummary]
     (by decide) (by decide)⟩

/-- C10: a `fetchFileNodes` call for a file key already present in the
node cache returns the cached list and leaves the state unchanged,
whatever the remote response and whatever `maxNodes` and `maxDepth`
arguments the call passes; concretely, after a first call with bound 2, a
second call with bound 1 receives the two cached summaries. -/
theorem fetchFileNodes_cache_hit_ignores_bounds :
    (∀ (st : ServerState) (k : String) (ns : List FigmaNode),
        (st.cache.fileNodes).lookup k = some ns →
        ∀ (r : Except String FigNode) (m d : Nat),
          fetchFileNodes st k r m d = (Except.ok ns, st))
    ∧ (fetchFileNodes stateAfterFirstFetch "K" (Except.error "down") 1 3).1
        = Except.ok [frameASummary, frameBSummary]
    ∧ 1 < [frameASummary, frameBSummary].length := by
  refine ⟨?_, by decide, by decide⟩
  intro st k ns h r m d
  unfold fetchFileNodes
  rw [h]

/-- C10 (witness): the cache-hit equation at a concrete populated state,
with a failing remote and a smaller bound than the populating call. -/
theorem fetchFileNodes_cache_hit_ignores_bounds_witness :
    fetchFileNodes stateAfterFirstFetch "K" (Except.error "down") 1 3
      = (Except.ok [frameASummary, frameBSummary], stateAfterFirstFetch) :=
  fetchFileNodes_cache_hit_ignores_bounds.1 stateAfterFirstFetch "K"
    [frameASummary, frameBSummary] (by decide) (Except.error "down") 1 3

/-- The variants pushed for a page child are no more numerous than its
children. -/
lemma componentSetChildren_len (n : FigNode) :
    (componentSetChildren n).length ≤ n.children.length := by
  unfold componentSetChildren
  split
  · simpa using List.length_filter_le _ _
  · simp

/-- Bound for the per-page child loop: entered with at most `limit`
accumulated components and pages whose children each have at most `M`
children, it produces at most `limit + 1 + M` components (one overshoot
push plus its variants can land after the bound). -/
lemma pageChildrenLoop_len (limit M : Nat) :
    ∀ (ns : List FigNode) (acc : List Component),
      acc.length ≤ limit → (∀ n ∈ ns, n.children.length ≤ M) →
      (pageChildrenLoop limit ns acc).length ≤ limit + 1 + M := by
  intro ns
  induction ns with
  | nil =>
    intro acc h _
    rw [pageChildrenLoop]
    omega
  | cons n ns ih =>
    intro acc h hM
    have hcsc : (componentSetChildren n).length ≤ M :=
      le_trans (componentSetChildren_len n) (hM n (by simp))
    rw [pageChildrenLoop]
    by_cases hc : isComponentLike n = true
    · simp only [hc, if_pos]
      have hlen : ((acc ++ [toComponent n]) ++ componentSetChildren n).length
          = acc.length + 1 + (componentSetChildren n).length := by
        simp
        omega
      by_cases hb : ((acc ++ [toComponent n]) ++ componentSetChildren n).length ≥ limit
      · simp only [if_pos hb]
        omega
      · simp only [if_neg hb]
        apply ih
        · omega
        · intro m hm
          exact hM m (by simp [hm])
    · simp only [hc]
      simp only [Bool.false_eq_true, if_false]
      apply ih _ h
      intro m hm
      exact hM m (by simp [hm])

/-- Bound for the page loop: entered strictly below the limit, the final
component list has length at most `limit + 1 + M`. -/
lemma pagesLoop_len (limit M : Nat) :
    ∀ (ps : List FigNode) (acc : List Component),
      acc.length < limit →
      (∀ p ∈ ps, ∀ n ∈ p.children, n.children.length ≤ M) →
      (pagesLoop limit ps acc).length ≤ limit + 1 + M := by
  intro ps
  induction ps with
  | nil =>
    intro acc h _
    rw [pagesLoop]
    omega
  | cons p ps ih =>
    intro acc h hM
    rw [pagesLoop]
    have hacc1 : (if isComponentLike p = true then acc ++ [toComponent p] else acc).length
        ≤ limit := by
      split
      · simp
        omega
      · omega
    have h2 := pageChildrenLoop_len limit M p.children _ hacc1
      (fun n hn => hM p (by simp) n hn)
    by_cases hb :
        (pageChildrenLoop limit p.children
          (if isComponentLike p = true then acc ++ [toComponent p] else acc)).length ≥ limit
    · simp only [if_pos hb]
      exact h2
    · simp only [if_neg hb]
      apply ih
      · omega
      · intro q hq
        exact hM q (by simp [hq])

/-- C4 (amended): the shallow scan breaks out of its page and page-child
loops once the accumulated list reaches the limit, but it pushes a
component-like page child together with all of its `COMPONENT_SET`
variants (and a component-like page itself) before checking the bound, so
the result can exceed `L`; it is bounded by `L + 1 + M` when every page
child has at most `M` children. -/
theorem fetchTopLevelComponents_bounded_overshoot (fileKey : String)
    (doc : FigNode) (limit M : Nat) (comps : List Component)
    (hL : 1 ≤ limit)
    (hM : ∀ p ∈ doc.children, ∀ n ∈ p.children, n.children.length ≤ M)
    (hres : fetchTopLevelComponents fileKey (Except.ok doc) limit
              = Except.ok comps) :
    comps.length ≤ limit + 1 + M := by
  unfold fetchTopLevelComponents at hres
  simp only [Except.ok.injEq] at hres
  subst hres
  exact pagesLoop_len limit M doc.children [] (by simpa using hL) hM

def variantV1 : FigNode := FigNode.mk "3:1" (some "V1") (some "COMPONENT") none []

def variantV2 : FigNode := FigNode.mk "3:2" (some "V2") (some "COMPONENT") none []

def setS : FigNode :=
  FigNode.mk "2:1" (some "S") (some "COMPONENT_SET") none [variantV1, variantV2]

def pageOne : FigNode := FigNode.mk "1:0" (some "Page 1") (some "CANVAS") none [setS]

def docWithVariants : FigNode :=
  FigNode.mk "0:0" (some "Document") (some "DOCUMENT") none [pageOne]

/-- C4 (counterexample): with limit 1, the scan pushes the component set
and then both of its variants before any bound check — the returned list
has length 3, exceeding the limit. -/
theorem fetchTopLevelComponents_exceeds_limit :
    fetchTopLevelComponents "K" (Except.ok docWithVariants) 1
      = Except.ok [toComponent setS, toComponent variantV1, toComponent variantV2]
    ∧ ¬ ([toComponent setS, toComponent variantV1, toComponent variantV2].length ≤ 1) := by
  exact ⟨by decide, by decide⟩

/-- C4 (witness): the amended bound at the concrete overshooting scan. -/
theorem fetchTopLevelComponents_bounded_overshoot_witness :
    [toComponent setS, toComponent variantV1, toComponent variantV2].length ≤ 1 + 1 + 2 :=
  fetchTopLevelComponents_bounded_overshoot "K" docWithVariants 1 2
    [toComponent setS, toComponent variantV1, toComponent variantV2]
    (by decide) (by decide) (by decide)

/-- Two folds with pointwise-equal step functions agree. -/
lemma foldlCongr {α β : Type} (f g : β → α → β) (h : ∀ b a, f b a = g b a) :
    ∀ (l : List α) (b : β), List.foldl f b l = List.foldl g b l
  | [], _ => rfl
  | a :: l, b => by rw [List.foldl, List.foldl, h, foldlCongr f g h l]

/-- `searchNodes` only depends on the pointwise behaviour of its match
predicate. -/
lemma searchNodes_congr (p q : FigNode → Bool) (h : ∀ n, p n = q n) (maxR : Nat) :
    ∀ (fuel : Nat) (n : FigNode) (acc : List FigmaNode),
      searchNodes p maxR fuel n acc = searchNodes q maxR fuel n acc := by
  intro fuel
  induction fuel with
  | zero =>
    intro n acc
    rfl
  | succ f ih =>
    intro n acc
    rw [searchNodes, searchNodes]
    by_cases hge : acc.length ≥ maxR
    · simp only [if_pos hge]
    · simp only [if_neg hge, h]
      apply foldlCongr
      intro a c
      by_cases hc : a.length ≥ maxR
      · simp only [if_pos hc]
      · simp only [if_neg hc, ih]

/-- A pattern of literal atoms matches a prefix exactly when the literal
characters are a case-insensitive prefix. -/
lemma matchPrefixI_lit : ∀ (l s : List Char),
    matchPrefixI (l.map Atom.lit) s = ciPrefixMatch l s
  | [], [] => rfl
  | [], _ :: _ => rfl
  | _ :: _, [] => rfl
  | c :: l, d :: s => by
    simp only [List.map, matchPrefixI, ciPrefixMatch, atomMatchesI,
      matchPrefixI_lit l s]

/-- A pattern of literal atoms is found by the unanchored search exactly
when the literal characters occur as a case-insensitive substring. -/
lemma regexSearchI_lit : ∀ (l s : List Char),
    regexSearchI (l.map Atom.lit) s = ciSubstrMatch l s
  | l, [] => by simp only [regexSearchI, ciSubstrMatch, matchPrefixI_lit]
  | l, d :: s => by
    simp only [regexSearchI, ciSubstrMatch, matchPrefixI_lit, regexSearchI_lit l s]

/-- A character of the literal vocabulary is not the dot metacharacter. -/
lemma literalChar_ne_dot {c : Char} (h : isRegexLiteralChar c = true) :
    (c == '.') = false := by
  by_cases hc : c = '.'
  · subst hc
    simp [isRegexLiteralChar] at h
  · simpa using hc

/-- Mapping the pattern compiler over literal-vocabulary characters
produces literal atoms only. -/
lemma mapPattern_literal :
    ∀ (l : List Char), (∀ c ∈ l, isRegexLiteralChar c = true) →
      l.map (fun c => if c == '.' then Atom.dot else Atom.lit c) = l.map Atom.lit := by
  intro l
  induction l with
  | nil =>
    intro _
    rfl
  | cons c l ih =>
    intro h
    simp only [List.map]
    rw [literalChar_ne_dot (h c (by simp))]
    simp only [Bool.false_eq_true, if_false]
    rw [ih (fun d hd => h d (by simp [hd]))]

/-- On queries made of literal-vocabulary characters the compiled pattern
is the list of literal atoms. -/
lemma stringToPattern_literal (q : String)
    (h : ∀ c ∈ q.data, isRegexLiteralChar c = true) :
    stringToPattern q = q.data.map Atom.lit :=
  mapPattern_literal q.data h

/-- The per-node regex test of the source coincides with the
specification-side substring test on literal-vocabulary queries. -/
lemma searchPred_eq (q : String)
    (h : ∀ c ∈ q.data, isRegexLiteralChar c = true) (n : FigNode) :
    figmaSearchPred (stringToPattern q) n = specSearchPred q n := by
  unfold figmaSearchPred specSearchPred
  cases hn : n.name with
  | none => rfl
  | some s =>
    by_cases hs : s = ""
    · simp [hs]
    · simp only [if_neg hs]
      rw [stringToPattern_literal q h]
      unfold regexTestI ciSubstring
      exact regexSearchI_lit q.data s.data

/-- C2 (amended): `findNodesByName` records a node exactly when the node
has a non-empty name matched by the query read as a case-insensitive
regular expression; for queries made only of characters without regex
meaning this is exactly the case-insensitive-substring search written
from the spec (same matches, same document order, same bounds), and a
node with an absent or empty name never matches. -/
theorem findNodesByName_literal_query_is_ci_substring (fileKey q : String)
    (remote : Except String FigNode) (maxResults : Nat)
    (h : ∀ c ∈ q.data, isRegexLiteralChar c = true) :
    findNodesByName fileKey (stringToPattern q) remote maxResults
      = findNodesByNameSpec fileKey q remote maxResults := by
  unfold findNodesByName findNodesByNameSpec
  cases remote with
  | error e => rfl
  | ok doc =>
    show Except.ok (searchNodes (figmaSearchPred (stringToPattern q)) maxResults 11 doc [])
      = Except.ok (searchNodes (specSearchPred q) maxResults 11 doc [])
    rw [searchNodes_congr (figmaSearchPred (stringToPattern q))
      (specSearchPred q) (searchPred_eq q h) maxResults 11 doc []]

def nodeNamedX : FigNode := FigNode.mk "9:9" (some "x") (some "FRAME") none []

/-- C2 (counterexample): querying `"."` against a tree whose only node is
named `"x"` records that node, although `"."` is not a case-insensitive
substring of `"x"` — the dot acts as the any-character metacharacter, not
as a literal. -/
theorem findNodesByName_dot_is_metacharacter :
    findNodesByName "K" (stringToPattern ".") (Except.ok nodeNamedX) 10
      = Except.ok [searchSummary nodeNamedX]
    ∧ ciSubstring "." "x" = false := by
  exact ⟨by decide, by decide⟩

def navTree : FigNode :=
  FigNode.mk "0:0" (some "Doc") (some "DOCUMENT") none
    [FigNode.mk "1:1" (some "Navbar") (some "FRAME") none [],
     FigNode.mk "1:2" (some "Navigation") (some "COMPONENT") none [],
     FigNode.mk "1:3" (some "nav-icon") (some "COMPONENT") none [],
     FigNode.mk "1:4" (some "Footer") (some "FRAME") none []]

/-- C2 (witness): the refinement instantiated at the spec scenario — the
query `"nav"` is inside the literal vocabulary and the regex search
coincides with the substring search on the four-node tree. -/
theorem findNodesByName_literal_query_is_ci_substring_witness :
    (∀ c ∈ "nav".data, isRegexLiteralChar c = true)
    ∧ findNodesByName "K" (stringToPattern "nav") (Except.ok navTree) 10
        = findNodesByNameSpec "K" "nav" (Except.ok navTree) 10 :=
  ⟨by decide,
   findNodesByName_literal_query_is_ci_substring "K" "nav"
     (Except.ok navTree) 10 (by decide)⟩

example :
    (findNodesByName "K" (stringToPattern "nav") (Except.ok navTree) 10).map
      (fun ns => ns.map FigmaNode.id) = Except.ok ["1:1", "1:2", "1:3"] := by
  decide

/-- C3: the slash-joined short form does NOT keep a node id containing
slashes intact — JS `split` with limit 2 truncates the split array, so parsing
`"ABC/4/5"` yields node id `"4"` and silently drops `"/5"`; only the
scheme form, whose regex captures the full remainder, preserves it. This
contradicts the intent stated in the source comment ("Limit to 2 parts to
handle nodeIds that may contain slashes"). -/
theorem parseNodeUri_short_form_truncates_node_id :
    parseNodeUri none "ABC/4/5" = Except.ok ("ABC", "4")
    ∧ parseNodeUri none "figma://node/ABC/4/5" = Except.ok ("ABC", "4/5") := by
  exact ⟨by decide, by decide⟩

/-- C5: `set_active_figma_file` verifies the file with a direct fetch
before committing anything: on a failed fetch it raises the descriptive
error and the whole server state — active-file pointer and cached file
list included — is exactly what it was; on a successful fetch the pointer
is committed to the requested key. -/
theorem setActiveFigmaFile_checks_before_commit :
    ∀ (st : ServerState) (fileKey now e nm : String),
      setActiveFigmaFile st fileKey now (Except.error e)
        = (Except.error ("File with key " ++ fileKey ++ " not found or not accessible"),
           st)
      ∧ (setActiveFigmaFile st fileKey now (Except.ok nm)).2.activeFileKey = fileKey := by
  intro st fileKey now e nm
  constructor
  · rfl
  · unfold setActiveFigmaFile
    by_cases h : (st.cache.files.find? (fun f => f.key == fileKey)).isSome = true
    · simp only [h, if_pos]
    · simp only [h]
      simp

/-- C6: when the cache is empty and the primary listing call fails,
`fetchFigmaFiles` falls back to the direct fetch of the pointed-to or
default key: on success it returns exactly the one synthesized record
(key = that key, name = the direct-fetch response); if the direct fetch
also fails, or no key is configured at all, it returns the empty list
instead of raising. -/
theorem fetchFigmaFiles_fallback_behaviour (df now nm ep : String)
    (st : ServerState) (hempty : st.cache.files = []) :
    (¬(st.activeFileKey = "" ∧ df = "") →
      (fetchFigmaFiles df st (Except.error ep) (Except.ok nm) now).1
        = [{ key := if st.activeFileKey ≠ "" then st.activeFileKey else df,
             name := nm, lastModified := now, thumbnailUrl := none }])
    ∧ (∀ ed, (fetchFigmaFiles df st (Except.error ep) (Except.error ed) now).1 = [])
    ∧ (st.activeFileKey = "" ∧ df = "" →
        ∀ dr, (fetchFigmaFiles df st (Except.error ep) dr now).1 = []) := by
  refine ⟨?_, ?_, ?_⟩
  · intro hkey
    unfold fetchFigmaFiles
    rw [hempty]
    have hcond : (df ≠ "" ∨ st.activeFileKey ≠ "") := by tauto
    simp only [List.length_nil, Nat.lt_irrefl, if_false]
    rw [if_pos hcond]
  · intro ed
    unfold fetchFigmaFiles
    rw [hempty]
    simp only [List.length_nil, Nat.lt_irrefl, if_false]
    by_cases hcond : (df ≠ "" ∨ st.activeFileKey ≠ "")
    · rw [if_pos hcond]
    · rw [if_neg hcond]
  · intro hkey dr
    unfold fetchFigmaFiles
    rw [hempty]
    simp only [List.length_nil, Nat.lt_irrefl, if_false]
    have hcond : ¬(df ≠ "" ∨ st.activeFileKey ≠ "") := by tauto
    rw [if_neg hcond]

def presetState : ServerState :=
  { activeFileKey := "XYZ",
    cache := { files := [], fileNodes := [], nodeDetails := [] } }

/-- C6 (witness): with an empty cache, pointer `"XYZ"`, a failing primary
listing and a successful direct fetch named `"My File"`, the resolver
returns exactly the one synthesized record. -/
theorem fetchFigmaFiles_fallback_behaviour_witness :
    (fetchFigmaFiles "" presetState (Except.error "p") (Except.ok "My File") "t").1
      = [{ key := if presetState.activeFileKey ≠ "" then presetState.activeFileKey else "",
           name := "My File", lastModified := "t", thumbnailUrl := none }] :=
  (fetchFigmaFiles_fallback_behaviour "" "t" "My File" "p" presetState rfl).1
    (by decide)

/-- Appending entries to an assoc list preserves every existing lookup
result (JS object property writes for fresh keys). -/
lemma lookupAppendSome {β : Type} (l l2 : List (String × β)) (k : String) (v : β)
    (h : l.lookup k = some v) : (l ++ l2).lookup k = some v := by
  induction l with
  | nil => simp [List.lookup] at h
  | cons p l ih =>
    cases p with
    | mk a b =>
      simp only [List.cons_append, List.lookup] at h ⊢
      cases hk : (k == a) with
      | true =>
        simp only [hk] at h
        exact h
      | false =>
        simp only [hk] at h
        exact ih h

/-- Preservation of populated cache entries between two cache states:
every cached file record stays, and every populated node-list and
node-detail entry keeps its exact value. -/
def cachePreserved (c c2 : Cache) : Prop :=
  (∀ f ∈ c.files, f ∈ c2.files)
  ∧ (∀ k v, (c.fileNodes).lookup k = some v → (c2.fileNodes).lookup k = some v)
  ∧ (∀ k v, (c.nodeDetails).lookup k = some v → (c2.nodeDetails).lookup k = some v)

lemma cachePreserved_refl (c : Cache) : cachePreserved c c :=
  ⟨fun _ hf => hf, fun _ _ h => h, fun _ _ h => h⟩

/-- C7: the stale-forever cache policy. Once populated, each of the three
mappings serves every later fetch for the same key with the identical
cached value, independent of the remote oracle (no remote call) and with
no state change; and every core operation — file listing, node-list
fetch, node-detail fetch, set-active-file — preserves every populated
entry (no invalidation, no refresh). -/
theorem cache_entries_stale_forever (df now : String) (st : ServerState) :
    (st.cache.files ≠ [] →
      ∀ p d, fetchFigmaFiles df st p d now = (st.cache.files, st))
    ∧ (∀ k ns, (st.cache.fileNodes).lookup k = some ns →
        ∀ r m dd, fetchFileNodes st k r m dd = (Except.ok ns, st))
    ∧ (∀ k nid dtl, (st.cache.nodeDetails).lookup (k ++ ":" ++ nid) = some dtl →
        ∀ r, fetchNodeDetails st k nid r = (Except.ok (some dtl), st))
    ∧ (∀ p d, cachePreserved st.cache (fetchFigmaFiles df st p d now).2.cache)
    ∧ (∀ k r m dd, cachePreserved st.cache (fetchFileNodes st k r m dd).2.cache)
    ∧ (∀ k nid r, cachePreserved st.cache (fetchNodeDetails st k nid r).2.cache)
    ∧ (∀ k rem, cachePreserved st.cache (setActiveFigmaFile st k now rem).2.cache) := by
  refine ⟨?_, ?_, ?_, ?_, ?_, ?_, ?_⟩
  · intro hne p d
    unfold fetchFigmaFiles
    have h0 : 0 < st.cache.files.length := by
      cases hf : st.cache.files with
      | nil => exact absurd hf hne
      | cons a l => simp [hf]
    rw [if_pos h0]
  · intro k ns h r m dd
    unfold fetchFileNodes
    rw [h]
  · intro k nid dtl h r
    unfold fetchNodeDetails
    simp only [h]
  · intro p d
    unfold fetchFigmaFiles
    by_cases h0 : 0 < st.cache.files.length
    · rw [if_pos h0]
      exact cachePreserved_refl _
    · rw [if_neg h0]
      have hnil : st.cache.files = [] := by
        cases hf : st.cache.files with
        | nil => rfl
        | cons a l => rw [hf] at h0; simp at h0
      cases p with
      | ok fs =>
        refine ⟨?_, fun _ _ h => h, fun _ _ h => h⟩
        intro f hf
        rw [hnil] at hf
        cases hf
      | error e =>
        by_cases hcond : (df ≠ "" ∨ st.activeFileKey ≠ "")
        · rw [if_pos hcond]
          cases d with
          | ok nm =>
            refine ⟨?_, fun _ _ h => h, fun _ _ h => h⟩
            intro f hf
            rw [hnil] at hf
            cases hf
          | error ed => exact cachePreserved_refl _
        · rw [if_neg hcond]
          exact cachePreserved_refl _
  · intro k r m dd
    unfold fetchFileNodes
    cases hl : (st.cache.fileNodes).lookup k with
    | some ns => exact cachePreserved_refl _
    | none =>
      cases r with
      | error e => exact cachePreserved_refl _
      | ok doc =>
        refine ⟨fun _ hf => hf, ?_, fun _ _ h => h⟩
        intro k2 v h
        exact lookupAppendSome _ _ _ _ h
  · intro k nid r
    simp only [fetchNodeDetails]
    cases hl : (st.cache.nodeDetails).lookup (k ++ ":" ++ nid) with
    | some dtl => exact cachePreserved_refl _
    | none =>
      cases r with
      | error e => exact cachePreserved_refl _
      | ok nodeData =>
        cases nodeData with
        | none => exact cachePreserved_refl _
        | some dtl =>
          refine ⟨fun _ hf => hf, fun _ _ h => h, ?_⟩
          intro k2 v h
          exact lookupAppendSome _ _ _ _ h
  · intro k rem
    unfold setActiveFigmaFile
    cases rem with
    | error e => exact cachePreserved_refl _
    | ok nm =>
      by_cases h : ((st.cache.files.find? (fun f => f.key == k)).isSome = true)
      · simp only [h, if_pos]
        exact cachePreserved_refl _
      · simp only [h, Bool.false_eq_true, if_false]
        refine ⟨?_, fun _ _ hh => hh, fun _ _ hh => hh⟩
        intro f hf
        simp [hf]

def cachedFile : FigmaFile :=
  { key := "F", name := "File F", lastModified := "t0", thumbnailUrl := none }

def populatedState : ServerState :=
  { activeFileKey := "F",
    cache := { files := [cachedFile],
               fileNodes := [("F", [frameASummary])],
               nodeDetails := [("F:1:1", "blob")] } }

/-- C7 (witness): at a state with all three mappings populated, each
fetch returns its cached value with no state change even though every
remote oracle fails. -/
theorem cache_entries_stale_forever_witness :
    fetchFigmaFiles "" populatedState (Except.error "p") (Except.error "d") "t1"
      = ([cachedFile], populatedState)
    ∧ fetchFileNodes populatedState "F" (Except.error "r") 1 1
      = (Except.ok [frameASummary], populatedState)
    ∧ fetchNodeDetails populatedState "F" "1:1" (Except.error "r")
      = (Except.ok (some "blob"), populatedState) :=
  ⟨(cache_entries_stale_forever "" "t1" populatedState).1 (by decide)
     (Except.error "p") (Except.error "d"),
   (cache_entries_stale_forever "" "t1" populatedState).2.1 "F" [frameASummary]
     (by decide) (Except.error "r") 1 1,
   (cache_entries_stale_forever "" "t1" populatedState).2.2.1 "F" "1:1" "blob"
     (by decide) (Except.error "r")⟩

/-- C8 (counterexample): the per-file node fetch and the node-detail
fetch do NOT surface transport failures: on a failing remote call,
`fetchFileNodes` silently returns the empty list and `fetchNodeDetails`
silently returns null, both as successful results with no state change. -/
theorem fetch_failures_silently_default :
    fetchFileNodes emptyState "K" (Except.error "network down") 50 3
      = (Except.ok [], emptyState)
    ∧ fetchNodeDetails emptyState "K" "1:2" (Except.error "network down")
      = (Except.ok none, emptyState) := by
  exact ⟨by decide, by decide⟩

/-- C8 (amended): on a transport failure, `fetchTopLevelComponents`,
`findNodesByName` and the set-active-file handler surface descriptive
errors; the two fallback paths of `fetchFigmaFiles` are exceptions as
specified; but `fetchFileNodes` and `fetchNodeDetails` are further
exceptions — they swallow the failure and return the empty list
(respectively null) as a successful result. -/
theorem remote_failure_policy (st : ServerState) (k nid e now : String)
    (m dd : Nat)
    (hn : (st.cache.fileNodes).lookup k = none)
    (hd : (st.cache.nodeDetails).lookup (k ++ ":" ++ nid) = none) :
    (fetchFileNodes st k (Except.error e) m dd = (Except.ok [], st))
    ∧ (fetchNodeDetails st k nid (Except.error e) = (Except.ok none, st))
    ∧ (fetchTopLevelComponents k (Except.error e) m
        = Except.error ("Failed to fetch components from file " ++ k ++ ": " ++ e))
    ∧ (∀ pat mr, findNodesByName k pat (Except.error e) mr
        = Except.error ("Failed to search for nodes by name: " ++ e))
    ∧ (setActiveFigmaFile st k now (Except.error e)
        = (Except.error ("File with key " ++ k ++ " not found or not accessible"), st)) := by
  refine ⟨?_, ?_, rfl, fun pat mr => rfl, rfl⟩
  · unfold fetchFileNodes
    rw [hn]
  · simp only [fetchNodeDetails]
    rw [hd]

/-- C8 (witness): the failure policy at the empty state with a concrete
failing call. -/
theorem remote_failure_policy_witness :
    fetchTopLevelComponents "K" (Except.error "boom") 10
      = Except.error ("Failed to fetch components from file " ++ "K" ++ ": " ++ "boom") :=
  (remote_failure_policy emptyState "K" "1:2" "boom" "t" 10 3
    (by decide) (by decide)).2.2.1

/-- `fetchFigmaFiles` never changes the active-file pointer. -/
lemma fetchFigmaFiles_activeKey (df now : String) (st : ServerState)
    (p : Except String (List FigmaFile)) (d : Except String String) :
    (fetchFigmaFiles df st p d now).2.activeFileKey = st.activeFileKey := by
  unfold fetchFigmaFiles
  by_cases h0 : 0 < st.cache.files.length
  · rw [if_pos h0]
  · rw [if_neg h0]
    cases p with
    | ok fs => rfl
    | error e =>
      by_cases hcond : (df ≠ "" ∨ st.activeFileKey ≠ "")
      · rw [if_pos hcond]
        cases d with
        | ok nm => rfl
        | error ed => rfl
      · rw [if_neg hcond]

/-- C9 (amended): `getActiveFile` returns `none` exactly when the fetched
file list is empty; when the pointer is non-empty and `find?` locates a
file with the pointer key it returns the first such file; otherwise — in
particular whenever the pointer is the empty string, even if some file
has the empty key — it returns the first file of the list. -/
theorem getActiveFile_resolution (df now : String) (st : ServerState)
    (p : Except String (List FigmaFile)) (d : Except String String) :
    ((getActiveFile df st p d now).1 = none ↔ (fetchFigmaFiles df st p d now).1 = [])
    ∧ (∀ f, st.activeFileKey ≠ "" →
        (fetchFigmaFiles df st p d now).1.find? (fun x => x.key == st.activeFileKey)
          = some f →
        (getActiveFile df st p d now).1 = some f)
    ∧ ((st.activeFileKey = "" ∨
        (fetchFigmaFiles df st p d now).1.find? (fun x => x.key == st.activeFileKey)
          = none) →
        (getActiveFile df st p d now).1 = (fetchFigmaFiles df st p d now).1.head?) := by
  have hkey := fetchFigmaFiles_activeKey df now st p d
  simp only [getActiveFile]
  generalize hg : fetchFigmaFiles df st p d now = fs at hkey ⊢
  obtain ⟨files, st1⟩ := fs
  dsimp only at hkey ⊢
  rw [hkey]
  refine ⟨?_, ?_, ?_⟩
  · by_cases hemp : files = []
    · subst hemp
      simp
    · rw [if_neg (by simpa [List.length_eq_zero] using hemp)]
      constructor
      · intro hres
        exfalso
        by_cases hk : st.activeFileKey ≠ ""
        · rw [if_pos hk] at hres
          cases hf : files.find? (fun f => f.key == st.activeFileKey) with
          | some f =>
            rw [hf] at hres
            simp at hres
          | none =>
            rw [hf] at hres
            cases files with
            | nil => exact hemp rfl
            | cons a l => simp at hres
        · rw [if_neg hk] at hres
          cases files with
          | nil => exact hemp rfl
          | cons a l => simp at hres
      · intro hres
        exact absurd hres hemp
  · intro f hk hf
    have hemp : ¬(files = []) := by
      intro h
      subst h
      simp [List.find?] at hf
    rw [if_neg (by simpa [List.length_eq_zero] using hemp)]
    rw [if_pos hk, hf]
  · intro hout
    by_cases hemp : files = []
    · subst hemp
      simp
    · rw [if_neg (by simpa [List.length_eq_zero] using hemp)]
      cases hout with
      | inl hk =>
        rw [if_neg (by simpa using hk)]
      | inr hf =>
        by_cases hk : st.activeFileKey ≠ ""
        · rw [if_pos hk, hf]
        · rw [if_neg hk]

def fileWithKeyA : FigmaFile :=
  { key := "a", name := "A", lastModified := "t", thumbnailUrl := none }

def fileWithEmptyKey : FigmaFile :=
  { key := "", name := "B", lastModified := "t", thumbnailUrl := none }

/-- State whose pointer is the (falsy) empty string while the cached file
list contains a later file whose key is exactly that empty string. -/
def emptyPointerState : ServerState :=
  { activeFileKey := "",
    cache := { files := [fileWithKeyA, fileWithEmptyKey],
               fileNodes := [], nodeDetails := [] } }

/-- C9 (counterexample): with pointer `""` and a file list containing a
file whose key equals the pointer (the second file), `getActiveFile`
skips the pointer lookup (the empty pointer is falsy) and returns the
first file instead of the key-matching one. -/
theorem getActiveFile_skips_empty_pointer :
    (getActiveFile "" emptyPointerState (Except.error "p") (Except.error "d") "t").1
      = some fileWithKeyA
    ∧ fileWithEmptyKey ∈ emptyPointerState.cache.files
    ∧ fileWithEmptyKey.key = emptyPointerState.activeFileKey
    ∧ fileWithKeyA ≠ fileWithEmptyKey := by
  exact ⟨by decide, by decide, by decide, by decide⟩

/-- C9 (witness): the amended resolution applied at a concrete state —
the empty pointer falls through to the first file. -/
theorem getActiveFile_resolution_witness :
    (getActiveFile "" emptyPointerState (Except.error "p") (Except.error "d") "t").1
      = (fetchFigmaFiles "" emptyPointerState (Except.error "p") (Except.error "d") "t").1.head? :=
  (getActiveFile_resolution "" "t" emptyPointerState
    (Except.error "p") (Except.error "d")).2.2 (Or.inl rfl)
